import Mathlib

/-!
Verification development for the Trading-strategy-finder scoring and
synthesis core: the Specificity/Trust scorers, gap detector, Consensus
Synthesizer, Discovery quality tiering, and the frontend's agreement-rate
display classifier.  Scores and confidences are modelled as rationals;
the backend's one-decimal rounding is `round1`.
-/

/-- Round a rational to one decimal place (backend `round(x, 1)`). -/
def round1 (x : ℚ) : ℚ := (round (10 * x) : ℤ) / 10

/-- How a field's value was obtained, per `ExtractedField.interpretation`
in `frontend/src/types/index.ts`. -/
inductive Interp where
  | explicitI
  | implicitI
  | inferredI
  | missingI
  deriving DecidableEq, Repr

/-- `ExtractedField` from `frontend/src/types/index.ts`: a confidence-annotated
extracted value. -/
structure ExtractedField where
  value : Option String
  confidence : ℚ
  source_quote : Option String
  interpretation : Interp
  deriving DecidableEq, Repr

/-- Well-formedness of an extracted field: confidence lies in [0,1]
(data-model invariant of §3 of the design). -/
def ExtractedField.Valid (f : ExtractedField) : Prop :=
  0 ≤ f.confidence ∧ f.confidence ≤ 1

instance (f : ExtractedField) : Decidable f.Valid := by
  unfold ExtractedField.Valid; infer_instance

/-- The ten rubric criteria of the Specificity Scorer, as enumerated by the
frontend `CRITERIA` table (`ScoreBreakdown.tsx`) and the backend rubric. -/
inductive Criterion where
  | strike_selection
  | entry_criteria
  | stop_loss
  | adjustments
  | buying_power_effect
  | profit_target
  | dte
  | failure_modes
  | real_pnl
  | backtest_evidence
  deriving DecidableEq, Repr

/-- Fixed rubric order of the ten criteria (order of `CRITERIA` in
`ScoreBreakdown.tsx`). -/
def criteriaOrder : List Criterion :=
  [.strike_selection, .entry_criteria, .stop_loss, .adjustments,
   .buying_power_effect, .profit_target, .dte, .failure_modes,
   .real_pnl, .backtest_evidence]

/-- Rubric weight of each criterion: 0.12 for the first five, 0.08 for the
rest (the `weight` column of `CRITERIA` in `ScoreBreakdown.tsx`, percent). -/
def weight : Criterion → ℚ
  | .strike_selection => 12/100
  | .entry_criteria => 12/100
  | .stop_loss => 12/100
  | .adjustments => 12/100
  | .buying_power_effect => 12/100
  | .profit_target => 8/100
  | .dte => 8/100
  | .failure_modes => 8/100
  | .real_pnl => 8/100
  | .backtest_evidence => 8/100

/-- Fixed human-readable label of each criterion (keys of
`SpecificityBreakdown` in `frontend/src/types/index.ts`). -/
def criterionLabel : Criterion → String
  | .strike_selection => "strike_selection"
  | .entry_criteria => "entry_criteria"
  | .stop_loss => "stop_loss"
  | .adjustments => "adjustments"
  | .buying_power_effect => "buying_power_effect"
  | .profit_target => "profit_target"
  | .dte => "dte"
  | .failure_modes => "failure_modes"
  | .real_pnl => "real_pnl"
  | .backtest_evidence => "backtest_evidence"

/-- Modelled from the spec: the per-criterion sub-score map (the backend
scoring module is not in src/).  `missing → 0`; `inferred → 1–4` scaled by
confidence; `implicit → 4–7` scaled by confidence; `explicit → 7–10` scaled
by confidence, with a +1 bonus capped at 10 when the field's value carries a
secondary quantitative detail. -/
def subscoreCore (interp : Interp) (conf : ℚ) (bonus : Bool) : ℚ :=
  match interp with
  | .missingI => 0
  | .inferredI => 1 + 3 * conf
  | .implicitI => 4 + 3 * conf
  | .explicitI => min ((7 + 3 * conf) + (if bonus then 1 else 0)) 10

/-- Modelled from the spec: sub-score of one extracted field, parameterised
by the (underspecified) secondary-quantitative-detail detector. -/
def subscore (hasDetail : Option String → Bool) (f : ExtractedField) : ℚ :=
  subscoreCore f.interpretation f.confidence (hasDetail f.value)

/-- Modelled from the spec: the Specificity Scorer's input is one
ExtractedField per rubric criterion (the backend projection from the full
strategy record for the failure-mode / real-P&L / backtest criteria is not
in src/). -/
structure ScoringInput where
  field : Criterion → ExtractedField

/-- All ten per-criterion fields are well-formed. -/
def ScoringInput.Valid (inp : ScoringInput) : Prop :=
  ∀ c : Criterion, (inp.field c).Valid

/-- Modelled from the spec: the weighted specificity total before rounding. -/
def weightedTotal (hasDetail : Option String → Bool) (inp : ScoringInput) : ℚ :=
  (criteriaOrder.map (fun c => weight c * subscore hasDetail (inp.field c))).sum

/-- Modelled from the spec: `specificity_score = round(Σ weight_i·subscore_i, 1)`. -/
def specificityScore (hasDetail : Option String → Bool) (inp : ScoringInput) : ℚ :=
  round1 (weightedTotal hasDetail inp)

/-- Modelled from the spec: the gap detector emits the label of every
criterion whose sub-score is below 3, preserving rubric order. -/
def specificityGaps (hasDetail : Option String → Bool) (inp : ScoringInput) : List String :=
  (criteriaOrder.filter (fun c => subscore hasDetail (inp.field c) < 3)).map criterionLabel

/-- `ExtractedNumericField` from `frontend/src/types/index.ts`. -/
structure ExtractedNumericField where
  value : Option ℚ
  value_range : Option (ℚ × ℚ)
  confidence : ℚ
  source_quote : Option String
  interpretation : Interp
  deriving DecidableEq, Repr

/-- `SetupRules` from `frontend/src/types/index.ts`. -/
structure SetupRules where
  underlying : ExtractedField
  option_type : ExtractedField
  strike_selection : ExtractedField
  dte : ExtractedNumericField
  width : ExtractedNumericField
  delta : ExtractedNumericField
  entry_criteria : ExtractedField
  entry_timing : ExtractedField
  buying_power_effect : ExtractedField
  deriving DecidableEq, Repr

/-- `ManagementRules` from `frontend/src/types/index.ts`. -/
structure ManagementRules where
  profit_target : ExtractedField
  stop_loss : ExtractedField
  time_exit : ExtractedField
  adjustment_rules : ExtractedField
  rolling_rules : ExtractedField
  defensive_maneuvers : ExtractedField
  deriving DecidableEq, Repr

/-- `RiskProfile` from `frontend/src/types/index.ts`. -/
structure RiskProfile where
  max_loss_per_trade : ExtractedField
  win_rate : ExtractedNumericField
  risk_reward_ratio : ExtractedField
  max_drawdown : ExtractedNumericField
  deriving DecidableEq, Repr

/-- `PerformanceClaims` from `frontend/src/types/index.ts`. -/
structure PerformanceClaims where
  starting_capital : ExtractedNumericField
  ending_capital : ExtractedNumericField
  total_return_percent : ExtractedNumericField
  time_period : ExtractedField
  profits_withdrawn : ExtractedNumericField
  verified : Bool
  deriving DecidableEq, Repr

/-- `FailureModeAnalysis` from `frontend/src/types/index.ts`. -/
structure FailureModeAnalysis where
  failure_modes_mentioned : List String
  discusses_losses : Bool
  max_drawdown_mentioned : Option ℚ
  recovery_strategy : Option String
  bias_detected : Bool
  deriving DecidableEq, Repr

/-- `ExtractedStrategy` from `frontend/src/types/index.ts`. -/
structure ExtractedStrategy where
  strategy_name : ExtractedField
  variation : ExtractedField
  trader_name : ExtractedField
  experience_level : ExtractedField
  setup_rules : SetupRules
  management_rules : ManagementRules
  risk_profile : RiskProfile
  performance_claims : PerformanceClaims
  failure_analysis : FailureModeAnalysis
  key_insights : List String
  warnings : List String
  quotes : List String
  deriving DecidableEq, Repr

/-- Modelled from the spec: whether the performance claims carry any
negative-period evidence (a negative claimed return, or an ending capital
below the starting capital); the backend trust-scoring module is not in
src/. -/
def hasNegativePeriodEvidence (pc : PerformanceClaims) : Bool :=
  (match pc.total_return_percent.value with
   | some r => decide (r < 0)
   | none => false) ||
  (match pc.starting_capital.value, pc.ending_capital.value with
   | some s, some e => decide (e < s)
   | _, _ => false)

/-- Modelled from the spec: discusses-losses trust factor (binary 0 or 10). -/
def trustFactorLosses (fa : FailureModeAnalysis) : ℚ :=
  if fa.discusses_losses then 10 else 0

/-- Modelled from the spec: mentions-drawdown trust factor
(10 iff `max_drawdown_mentioned` is non-null). -/
def trustFactorDrawdown (fa : FailureModeAnalysis) : ℚ :=
  if fa.max_drawdown_mentioned.isSome then 10 else 0

/-- Modelled from the spec: shows-losing-trades trust factor
(10 iff the performance claims include negative-period evidence). -/
def trustFactorLosingTrades (pc : PerformanceClaims) : ℚ :=
  if hasNegativePeriodEvidence pc then 10 else 0

/-- Modelled from the spec: balanced-claims trust factor
(10 unless `bias_detected`). -/
def trustFactorBalanced (fa : FailureModeAnalysis) : ℚ :=
  if fa.bias_detected then 0 else 10

/-- Modelled from the spec: `trust_score = round(0.30·a + 0.25·b + 0.25·c
+ 0.20·d, 1)` over the four binary factors. -/
def trustScore (fa : FailureModeAnalysis) (pc : PerformanceClaims) : ℚ :=
  round1 (30/100 * trustFactorLosses fa + 25/100 * trustFactorDrawdown fa +
    25/100 * trustFactorLosingTrades pc + 20/100 * trustFactorBalanced fa)

/-- Modelled from the spec: the Trust/Bias Scorer reads only the
`failure_analysis` and `performance_claims` parts of the strategy. -/
def trustScoreOf (s : ExtractedStrategy) : ℚ :=
  trustScore s.failure_analysis s.performance_claims

/-- Platform metrics of a discovery candidate; any metric may be absent
(`PlatformMetrics` in `frontend/src/types/index.ts` marks all keys
optional). -/
structure CandidateMetrics where
  views : Option Nat
  subscribers : Option Nat
  likes : Option Nat
  trusted : Bool
  duration_minutes : Option ℚ
  deriving DecidableEq, Repr

/-- Modelled from the spec: views > 100,000 → +30 points; an absent metric
contributes 0 (the backend discovery scorer is not in src/; the PRD's
quality-scoring table in the corpus states the same rubric). -/
def viewsPoints (m : CandidateMetrics) : Nat :=
  match m.views with
  | some v => if 100000 < v then 30 else 0
  | none => 0

/-- Modelled from the spec: subscribers > 100,000 → +25 points. -/
def subscriberPoints (m : CandidateMetrics) : Nat :=
  match m.subscribers with
  | some v => if 100000 < v then 25 else 0
  | none => 0

/-- Modelled from the spec: likes > 1,000 → +15 points. -/
def likesPoints (m : CandidateMetrics) : Nat :=
  match m.likes with
  | some v => if 1000 < v then 15 else 0
  | none => 0

/-- Modelled from the spec: trusted-list membership → +20 points. -/
def trustedPoints (m : CandidateMetrics) : Nat :=
  if m.trusted then 20 else 0

/-- Modelled from the spec: duration within the 8–30 minute sweet spot
→ +10 points. -/
def durationPoints (m : CandidateMetrics) : Nat :=
  match m.duration_minutes with
  | some d => if 8 ≤ d ∧ d ≤ 30 then 10 else 0
  | none => 0

/-- Modelled from the spec: additive point rubric capped at 100. -/
def qualityScore (m : CandidateMetrics) : Nat :=
  min (viewsPoints m + subscriberPoints m + likesPoints m + trustedPoints m +
    durationPoints m) 100

/-- Modelled from the spec: tier thresholds `score ≥ 70 → high`,
`score ≥ 40 → medium`, else `low`. -/
def qualityTier (s : Nat) : String :=
  if 70 ≤ s then ("high") else if 40 ≤ s then ("medium") else ("low")

/-- Modelled from the spec: normalization used for categorical bucketing —
case-insensitive and whitespace-insensitive string comparison (the backend
synthesis module is not in src/). -/
def normalizeValue (s : String) : String :=
  String.mk ((s.data.filter (fun ch => !ch.isWhitespace)).map Char.toLower)

/-- The fixed topics the Consensus Synthesizer examines, per §4.4 of the
design. -/
inductive Topic where
  | underlying
  | dte
  | delta
  | strike_selection
  | profit_target
  | stop_loss
  deriving DecidableEq, Repr

/-- Fixed topic order. -/
def topicsOrder : List Topic :=
  [.underlying, .dte, .delta, .strike_selection, .profit_target, .stop_loss]

/-- Label of each topic. -/
def topicLabel : Topic → String
  | .underlying => "underlying"
  | .dte => "dte"
  | .delta => "delta"
  | .strike_selection => "strike_selection"
  | .profit_target => "profit_target"
  | .stop_loss => "stop_loss"

/-- One input source for synthesis: its id, its Specificity score (used only
for consensus tie-breaks), and its per-topic extracted value (`none` models
`interpretation = missing`). -/
structure SourceInput where
  id : String
  specificity : ℚ
  fields : Topic → Option String

/-- A value bucket being assembled for one topic: the first-seen raw value
as representative, its normalized key, and the member sources in first-seen
order. -/
structure Bucket where
  reprValue : String
  key : String
  members : List SourceInput

/-- Add one source carrying raw value `v` to the bucket list: join the
bucket with a matching normalized key, else open a new bucket at the end
(first-seen bucket order). -/
def addToBuckets (s : SourceInput) (v : String) : List Bucket → List Bucket
  | [] => [⟨v, normalizeValue v, [s]⟩]
  | b :: bs =>
    if b.key = normalizeValue v then
      ⟨b.reprValue, b.key, b.members ++ [s]⟩ :: bs
    else
      b :: addToBuckets s v bs

/-- One bucketing step: a source with a missing value is skipped, otherwise
it is added to the buckets. -/
def bucketStep (t : Topic) (bs : List Bucket) (s : SourceInput) : List Bucket :=
  match s.fields t with
  | none => bs
  | some v => addToBuckets s v bs

/-- Modelled from the spec: bucket the non-missing values of a topic by
normalized equality, scanning the sources left to right. -/
def buildBuckets (t : Topic) (sources : List SourceInput) : List Bucket :=
  sources.foldl (bucketStep t) []

/-- Number of sources with a non-missing value for the topic. -/
def presentCount (sources : List SourceInput) (t : Topic) : Nat :=
  (sources.filter (fun s => (s.fields t).isSome)).length

/-- Size of the largest bucket (0 when there are none). -/
def maxBucketSize (buckets : List Bucket) : Nat :=
  (buckets.map (fun b => b.members.length)).foldr max 0

/-- Modelled from the spec: `agreement_rate = largest bucket / sources with
a non-missing value`. -/
def agreementRate (sources : List SourceInput) (t : Topic) : ℚ :=
  (maxBucketSize (buildBuckets t sources) : ℚ) / (presentCount sources t : ℚ)

/-- Average Specificity score of a bucket's member sources (consensus
tie-break key). -/
def avgSpec (b : Bucket) : ℚ :=
  (b.members.map (fun s => s.specificity)).sum / (b.members.length : ℚ)

/-- First bucket attaining the strictly highest average source Specificity
(earlier bucket wins ties). -/
def argmaxAvg : List Bucket → Option Bucket
  | [] => none
  | b :: bs =>
    match argmaxAvg bs with
    | none => some b
    | some c => if avgSpec b < avgSpec c then some c else some b

/-- Modelled from the spec: the consensus winner — among the buckets tied at
the maximum size, the one with the highest average source Specificity. -/
def winnerBucket (buckets : List Bucket) : Option Bucket :=
  argmaxAvg (buckets.filter (fun b => b.members.length = maxBucketSize buckets))

/-- Insert a bucket before the first strictly-smaller one, keeping
earlier-seen buckets ahead on ties. -/
def insertByCount (b : Bucket) : List Bucket → List Bucket
  | [] => [b]
  | x :: xs =>
    if x.members.length ≤ b.members.length then b :: x :: xs
    else x :: insertByCount b xs

/-- Stable sort of buckets by descending member count (ties keep first-seen
order). -/
def sortByCount (l : List Bucket) : List Bucket :=
  l.foldr insertByCount []

/-- A per-bucket position record, per `ConsensusItem.positions` in
`frontend/src/types/index.ts`. -/
structure Position where
  value : String
  source_count : Nat
  sources : List String
  deriving DecidableEq, Repr

/-- Render a bucket as a position. -/
def toPosition (b : Bucket) : Position :=
  ⟨b.reprValue, b.members.length, b.members.map (fun s => s.id)⟩

/-- `ConsensusItem` from `frontend/src/types/index.ts`. -/
structure ConsensusItem where
  topic : String
  consensus_value : String
  agreement_rate : ℚ
  positions : List Position
  sources : List String
  deriving DecidableEq, Repr

/-- `Controversy` from `frontend/src/types/index.ts`. -/
structure Controversy where
  topic : String
  positions : List Position
  deriving DecidableEq, Repr

/-- Outcome of synthesizing one topic. -/
inductive TopicOutcome where
  | consensusOf (item : ConsensusItem)
  | controversyOf (c : Controversy)
  | gapOf (label : String)
  | nothingOut
  deriving DecidableEq, Repr

/-- Modelled from the spec (§4.4): per-topic synthesis — bucket the
non-missing values; with no non-missing value the topic becomes a gap when
more than half of the sources miss it; otherwise emit a ConsensusItem when
`agreement_rate ≥ 0.6` (tie-break by highest average source Specificity),
else a Controversy when at least two buckets exist, with positions ordered
by descending source count (ties first-seen). -/
def synthesizeTopic (sources : List SourceInput) (t : Topic) : TopicOutcome :=
  let buckets := buildBuckets t sources
  let total := presentCount sources t
  if total = 0 then
    if sources.length < 2 * (sources.filter (fun s => (s.fields t).isNone)).length then
      .gapOf (topicLabel t)
    else
      .nothingOut
  else
    let rate : ℚ := (maxBucketSize buckets : ℚ) / (total : ℚ)
    if 3/5 ≤ rate then
      match winnerBucket buckets with
      | some w =>
        .consensusOf ⟨topicLabel t, w.reprValue, rate,
          (sortByCount buckets).map toPosition, w.members.map (fun s => s.id)⟩
      | none => .nothingOut
    else if 2 ≤ buckets.length then
      .controversyOf ⟨topicLabel t, (sortByCount buckets).map toPosition⟩
    else
      .nothingOut

/-- `ConsensusReport`: the synthesis result shape (`sources_analyzed`,
`consensus`, `controversies`, `gaps`). -/
structure ConsensusReport where
  sources_analyzed : Nat
  consensus : List ConsensusItem
  controversies : List Controversy
  gaps : List String
  deriving DecidableEq, Repr

/-- Modelled from the spec: full synthesis over the fixed topic list. -/
def synthesize (sources : List SourceInput) : ConsensusReport where
  sources_analyzed := sources.length
  consensus := topicsOrder.filterMap (fun t =>
    match synthesizeTopic sources t with
    | .consensusOf item => some item
    | _ => none)
  controversies := topicsOrder.filterMap (fun t =>
    match synthesizeTopic sources t with
    | .controversyOf c => some c
    | _ => none)
  gaps := topicsOrder.filterMap (fun t =>
    match synthesizeTopic sources t with
    | .gapOf l => some l
    | _ => none)

/-- `getAgreementClass` from `frontend/src/components/Skeleton.tsx`
(ConsensusView): `rate >= 0.8 → "strong"`, `rate >= 0.6 → "moderate"`,
else `"weak"`. -/
def getAgreementClass (rate : ℚ) : String :=
  if 8/10 ≤ rate then ("strong")
  else if 6/10 ≤ rate then ("moderate")
  else ("weak")

/-- The ConsensusView component maps `getAgreementClass` over every rendered
ConsensusItem's `agreement_rate` (`Skeleton.tsx`). -/
def renderedAgreementClasses (items : List ConsensusItem) : List String :=
  items.map (fun it => getAgreementClass it.agreement_rate)

/-! ## Generic lemmas about rounding and sub-scores -/

theorem round_mono_q {x y : ℚ} (h : x ≤ y) : round x ≤ round y := by
  rw [round_eq, round_eq]
  exact Int.floor_le_floor (by linarith)

theorem round1_nonneg {x : ℚ} (h : 0 ≤ x) : 0 ≤ round1 x := by
  unfold round1
  have h1 : (0 : ℤ) ≤ round (10 * x) := by
    have h2 := round_mono_q (show (0 : ℚ) ≤ 10 * x by linarith)
    simpa using h2
  exact div_nonneg (by exact_mod_cast h1) (by norm_num)

theorem round1_le_ten {x : ℚ} (h : x ≤ 10) : round1 x ≤ 10 := by
  unfold round1
  have h1 : round (10 * x) ≤ round ((100 : ℚ)) := round_mono_q (by linarith)
  have h2 : round ((100 : ℚ)) = 100 := by
    norm_num
  rw [h2] at h1
  rw [div_le_iff₀ (show (0 : ℚ) < 10 by norm_num)]
  calc ((round (10 * x) : ℤ) : ℚ) ≤ ((100 : ℤ) : ℚ) := by exact_mod_cast h1
    _ = 10 * 10 := by norm_num

theorem subscoreCore_nonneg (interp : Interp) (conf : ℚ) (bonus : Bool)
    (h0 : 0 ≤ conf) : 0 ≤ subscoreCore interp conf bonus := by
  cases interp <;> simp only [subscoreCore]
  · apply le_min
    · split <;> linarith
    · norm_num
  · linarith
  · linarith
  · exact le_refl 0

theorem subscoreCore_le_ten (interp : Interp) (conf : ℚ) (bonus : Bool)
    (h1 : conf ≤ 1) : subscoreCore interp conf bonus ≤ 10 := by
  cases interp <;> simp only [subscoreCore]
  · exact min_le_right _ _
  · linarith
  · linarith
  · norm_num

theorem subscore_nonneg (hasDetail : Option String → Bool) (f : ExtractedField)
    (hf : f.Valid) : 0 ≤ subscore hasDetail f :=
  subscoreCore_nonneg _ _ _ hf.1

theorem subscore_le_ten (hasDetail : Option String → Bool) (f : ExtractedField)
    (hf : f.Valid) : subscore hasDetail f ≤ 10 :=
  subscoreCore_le_ten _ _ _ hf.2

/-! ## C1: specificity score formula, weights and range -/

theorem weightedTotal_bounds (hasDetail : Option String → Bool)
    (inp : ScoringInput) (hv : inp.Valid) :
    0 ≤ weightedTotal hasDetail inp ∧ weightedTotal hasDetail inp ≤ 10 := by
  have hb : ∀ c : Criterion,
      0 ≤ subscore hasDetail (inp.field c) ∧ subscore hasDetail (inp.field c) ≤ 10 :=
    fun c => ⟨subscore_nonneg _ _ (hv c), subscore_le_ten _ _ (hv c)⟩
  obtain ⟨a1, b1⟩ := hb .strike_selection
  obtain ⟨a2, b2⟩ := hb .entry_criteria
  obtain ⟨a3, b3⟩ := hb .stop_loss
  obtain ⟨a4, b4⟩ := hb .adjustments
  obtain ⟨a5, b5⟩ := hb .buying_power_effect
  obtain ⟨a6, b6⟩ := hb .profit_target
  obtain ⟨a7, b7⟩ := hb .dte
  obtain ⟨a8, b8⟩ := hb .failure_modes
  obtain ⟨a9, b9⟩ := hb .real_pnl
  obtain ⟨a10, b10⟩ := hb .backtest_evidence
  simp only [weightedTotal, criteriaOrder, List.map_cons, List.map_nil,
    List.sum_cons, List.sum_nil, weight]
  constructor <;> linarith

/-- C1: the Specificity Scorer's ten weights are 0.12 for strike selection,
entry criteria, stop loss, adjustments and buying-power effect and 0.08 for
profit target, DTE, failure modes, real P&L and backtest evidence, summing
to exactly 1; for every well-formed strategy input the score equals
`round(Σ weight_i · subscore_i, 1)` and lies in [0, 10]. -/
theorem specificity_weights_and_range (hasDetail : Option String → Bool)
    (inp : ScoringInput) (hv : inp.Valid) :
    weight .strike_selection = 12/100 ∧ weight .entry_criteria = 12/100 ∧
    weight .stop_loss = 12/100 ∧ weight .adjustments = 12/100 ∧
    weight .buying_power_effect = 12/100 ∧ weight .profit_target = 8/100 ∧
    weight .dte = 8/100 ∧ weight .failure_modes = 8/100 ∧
    weight .real_pnl = 8/100 ∧ weight .backtest_evidence = 8/100 ∧
    (criteriaOrder.map weight).sum = 1 ∧
    specificityScore hasDetail inp = round1 (weightedTotal hasDetail inp) ∧
    0 ≤ specificityScore hasDetail inp ∧ specificityScore hasDetail inp ≤ 10 := by
  obtain ⟨hlo, hhi⟩ := weightedTotal_bounds hasDetail inp hv
  refine ⟨rfl, rfl, rfl, rfl, rfl, rfl, rfl, rfl, rfl, rfl, by norm_num [criteriaOrder, weight], rfl, ?_, ?_⟩
  · exact round1_nonneg hlo
  · exact round1_le_ten hhi

/-- A detail detector that never fires (used to instantiate witnesses). -/
def hdNone : Option String → Bool := fun _ => false

/-- An extracted field with `interpretation = missing`. -/
def fieldMissing : ExtractedField := ⟨none, 0, none, .missingI⟩

/-- A scoring input with every criterion's field missing. -/
def inpAllMissing : ScoringInput := ⟨fun _ => fieldMissing⟩

/-- C1 witness: the theorem applied to the all-missing input. -/
theorem specificity_weights_and_range_witness :
    weight .strike_selection = 12/100 ∧ weight .entry_criteria = 12/100 ∧
    weight .stop_loss = 12/100 ∧ weight .adjustments = 12/100 ∧
    weight .buying_power_effect = 12/100 ∧ weight .profit_target = 8/100 ∧
    weight .dte = 8/100 ∧ weight .failure_modes = 8/100 ∧
    weight .real_pnl = 8/100 ∧ weight .backtest_evidence = 8/100 ∧
    (criteriaOrder.map weight).sum = 1 ∧
    specificityScore hdNone inpAllMissing = round1 (weightedTotal hdNone inpAllMissing) ∧
    0 ≤ specificityScore hdNone inpAllMissing ∧
    specificityScore hdNone inpAllMissing ≤ 10 :=
  specificity_weights_and_range hdNone inpAllMissing
    (fun _ => ⟨by norm_num [inpAllMissing, fieldMissing],
      by norm_num [inpAllMissing, fieldMissing]⟩)

/-! ## C7: gaps are exactly the criteria scored below 3 -/

/-- C7: the gaps list is exactly the fixed labels of the criteria whose
sub-score falls below 3, in rubric order; in particular a strategy with
every field missing scores 0 and lists all ten criterion labels. -/
theorem gaps_are_low_subscores (hasDetail : Option String → Bool)
    (inp : ScoringInput) :
    specificityGaps hasDetail inp =
      (criteriaOrder.filter
        (fun c => subscore hasDetail (inp.field c) < 3)).map criterionLabel ∧
    ((∀ c : Criterion, (inp.field c).interpretation = .missingI) →
      specificityScore hasDetail inp = 0 ∧
      specificityGaps hasDetail inp =
        ["strike_selection", "entry_criteria", "stop_loss", "adjustments",
         "buying_power_effect", "profit_target", "dte", "failure_modes",
         "real_pnl", "backtest_evidence"]) := by
  refine ⟨rfl, fun h => ?_⟩
  have hz : ∀ c : Criterion, subscore hasDetail (inp.field c) = 0 := by
    intro c
    unfold subscore
    rw [h c]
    rfl
  constructor
  · simp [specificityScore, weightedTotal, criteriaOrder, hz, round1]
  · norm_num [specificityGaps, criteriaOrder, hz, criterionLabel]

/-- C7 witness: the all-missing input scores 0 with all ten labels as gaps. -/
theorem gaps_are_low_subscores_witness :
    specificityScore hdNone inpAllMissing = 0 ∧
    specificityGaps hdNone inpAllMissing =
      ["strike_selection", "entry_criteria", "stop_loss", "adjustments",
       "buying_power_effect", "profit_target", "dte", "failure_modes",
       "real_pnl", "backtest_evidence"] :=
  (gaps_are_low_subscores hdNone inpAllMissing).2 (fun _ => rfl)

/-! ## C8: sub-scores are monotone in confidence -/

/-- C8: raising a field's confidence without changing its value or its
interpretation never lowers its sub-score (confidences read in [0,1]). -/
theorem subscore_monotone_confidence (hasDetail : Option String → Bool)
    (f g : ExtractedField) (hval : f.value = g.value)
    (hint : f.interpretation = g.interpretation)
    (h0 : 0 ≤ f.confidence) (h12 : f.confidence ≤ g.confidence)
    (h1 : g.confidence ≤ 1) :
    subscore hasDetail f ≤ subscore hasDetail g := by
  unfold subscore
  rw [hval, hint]
  cases g.interpretation <;> simp only [subscoreCore]
  · exact min_le_min (add_le_add_right (by linarith) _) (le_refl 10)
  · linarith
  · linarith
  · exact le_refl 0

/-- Explicit field at confidence 1/2. -/
def fEx : ExtractedField := ⟨some ("16 delta"), 1/2, none, .explicitI⟩

/-- The same field at confidence 3/4. -/
def gEx : ExtractedField := ⟨some ("16 delta"), 3/4, none, .explicitI⟩

/-- C8 witness: the theorem applied at confidences 1/2 ≤ 3/4. -/
theorem subscore_monotone_confidence_witness :
    subscore hdNone fEx ≤ subscore hdNone gEx :=
  subscore_monotone_confidence hdNone fEx gEx rfl rfl
    (by norm_num [fEx]) (by norm_num [fEx, gEx]) (by norm_num [gEx])

/-! ## C4: trust score formula, binary factors, range, independence -/

/-- C4: the trust score is `round(0.30a + 0.25b + 0.25c + 0.20d, 1)` over
four binary 0-or-10 factors — losses discussed, drawdown mentioned,
negative-period evidence shown, no bias detected — always lies in [0, 10],
and depends only on the failure analysis and performance claims. -/
theorem trust_score_formula (fa : FailureModeAnalysis) (pc : PerformanceClaims)
    (s1 s2 : ExtractedStrategy)
    (hfa : s1.failure_analysis = s2.failure_analysis)
    (hpc : s1.performance_claims = s2.performance_claims) :
    trustScore fa pc = round1 (30/100 * trustFactorLosses fa +
      25/100 * trustFactorDrawdown fa + 25/100 * trustFactorLosingTrades pc +
      20/100 * trustFactorBalanced fa) ∧
    (trustFactorLosses fa = 10 ↔ fa.discusses_losses = true) ∧
    (trustFactorLosses fa = 0 ∨ trustFactorLosses fa = 10) ∧
    (trustFactorDrawdown fa = 10 ↔ fa.max_drawdown_mentioned ≠ none) ∧
    (trustFactorDrawdown fa = 0 ∨ trustFactorDrawdown fa = 10) ∧
    (trustFactorLosingTrades pc = 10 ↔ hasNegativePeriodEvidence pc = true) ∧
    (trustFactorLosingTrades pc = 0 ∨ trustFactorLosingTrades pc = 10) ∧
    (trustFactorBalanced fa = 10 ↔ fa.bias_detected = false) ∧
    (trustFactorBalanced fa = 0 ∨ trustFactorBalanced fa = 10) ∧
    0 ≤ trustScore fa pc ∧ trustScore fa pc ≤ 10 ∧
    trustScoreOf s1 = trustScoreOf s2 := by
  have hA : trustFactorLosses fa = 0 ∨ trustFactorLosses fa = 10 := by
    unfold trustFactorLosses; split <;> simp
  have hB : trustFactorDrawdown fa = 0 ∨ trustFactorDrawdown fa = 10 := by
    unfold trustFactorDrawdown; split <;> simp
  have hC : trustFactorLosingTrades pc = 0 ∨ trustFactorLosingTrades pc = 10 := by
    unfold trustFactorLosingTrades; split <;> simp
  have hD : trustFactorBalanced fa = 0 ∨ trustFactorBalanced fa = 10 := by
    unfold trustFactorBalanced; split <;> simp
  have bA : 0 ≤ trustFactorLosses fa ∧ trustFactorLosses fa ≤ 10 := by
    rcases hA with h | h <;> rw [h] <;> norm_num
  have bB : 0 ≤ trustFactorDrawdown fa ∧ trustFactorDrawdown fa ≤ 10 := by
    rcases hB with h | h <;> rw [h] <;> norm_num
  have bC : 0 ≤ trustFactorLosingTrades pc ∧ trustFactorLosingTrades pc ≤ 10 := by
    rcases hC with h | h <;> rw [h] <;> norm_num
  have bD : 0 ≤ trustFactorBalanced fa ∧ trustFactorBalanced fa ≤ 10 := by
    rcases hD with h | h <;> rw [h] <;> norm_num
  refine ⟨rfl, ?_, hA, ?_, hB, ?_, hC, ?_, hD, ?_, ?_, ?_⟩
  · cases h : fa.discusses_losses <;> simp [trustFactorLosses, h]
  · cases h : fa.max_drawdown_mentioned <;> simp [trustFactorDrawdown, h]
  · cases h : hasNegativePeriodEvidence pc <;> simp [trustFactorLosingTrades, h]
  · cases h : fa.bias_detected <;> simp [trustFactorBalanced, h]
  · exact round1_nonneg (by
      obtain ⟨a0, a1⟩ := bA
      obtain ⟨b0, b1⟩ := bB
      obtain ⟨c0, c1⟩ := bC
      obtain ⟨d0, d1⟩ := bD
      linarith)
  · exact round1_le_ten (by
      obtain ⟨a0, a1⟩ := bA
      obtain ⟨b0, b1⟩ := bB
      obtain ⟨c0, c1⟩ := bC
      obtain ⟨d0, d1⟩ := bD
      linarith)
  · unfold trustScoreOf
    rw [hfa, hpc]

/-- A numeric field with `interpretation = missing`. -/
def emptyNumField : ExtractedNumericField := ⟨none, none, 0, none, .missingI⟩

/-- Example setup rules (all fields missing). -/
def exSetup : SetupRules :=
  ⟨fieldMissing, fieldMissing, fieldMissing, emptyNumField, emptyNumField,
   emptyNumField, fieldMissing, fieldMissing, fieldMissing⟩

/-- Example management rules (all fields missing). -/
def exMgmt : ManagementRules :=
  ⟨fieldMissing, fieldMissing, fieldMissing, fieldMissing, fieldMissing,
   fieldMissing⟩

/-- Example risk profile (all fields missing). -/
def exRisk : RiskProfile :=
  ⟨fieldMissing, emptyNumField, fieldMissing, emptyNumField⟩

/-- Example performance claims (nothing claimed). -/
def exPerf : PerformanceClaims :=
  ⟨emptyNumField, emptyNumField, emptyNumField, fieldMissing, emptyNumField,
   false⟩

/-- Example failure-mode analysis: losses discussed, a 12% drawdown
mentioned, no bias flagged. -/
def exFail : FailureModeAnalysis := ⟨["assignment"], true, some 12, none, false⟩

/-- Example strategy carrying `exFail` and `exPerf`. -/
def exStrat1 : ExtractedStrategy :=
  ⟨fieldMissing, fieldMissing, fieldMissing, fieldMissing, exSetup, exMgmt,
   exRisk, exPerf, exFail, [], [], []⟩

/-- The same strategy with different key insights (same failure analysis and
performance claims). -/
def exStrat2 : ExtractedStrategy := { exStrat1 with key_insights := ["note"] }

/-- C4 witness: range and independence at a concrete strategy pair. -/
theorem trust_score_formula_witness :
    0 ≤ trustScore exFail exPerf ∧ trustScore exFail exPerf ≤ 10 ∧
    trustScoreOf exStrat1 = trustScoreOf exStrat2 := by
  obtain ⟨-, -, -, -, -, -, -, -, -, h10, h11, h12⟩ :=
    trust_score_formula exFail exPerf exStrat1 exStrat2 rfl rfl
  exact ⟨h10, h11, h12⟩

/-! ## C5: discovery quality tiering -/

theorem quality_tier_cases (s : Nat) :
    (qualityTier s = "high" ↔ 70 ≤ s) ∧
    (qualityTier s = "medium" ↔ 40 ≤ s ∧ s < 70) ∧
    (qualityTier s = "low" ↔ s < 40) := by
  unfold qualityTier
  split_ifs with h1 h2 <;>
    refine ⟨⟨fun hc => ?_, fun hc => ?_⟩, ⟨fun hc => ?_, fun hc => ?_⟩,
      ⟨fun hc => ?_, fun hc => ?_⟩⟩ <;>
    first
      | assumption
      | rfl
      | omega
      | (exact absurd hc (by decide))
      | (exact absurd hc (by omega))

/-- C5: the discovery score is the capped sum of the five additive rules,
never exceeds 100, each absent metric contributes exactly 0 (total
function, so no input can fail), the all-absent candidate scores 0, and
the tier is high iff score ≥ 70, medium iff 40 ≤ score < 70, low
otherwise. -/
theorem discovery_tiering (m : CandidateMetrics) :
    qualityScore m = min (viewsPoints m + subscriberPoints m + likesPoints m +
      trustedPoints m + durationPoints m) 100 ∧
    qualityScore m ≤ 100 ∧
    (qualityTier (qualityScore m) = "high" ↔ 70 ≤ qualityScore m) ∧
    (qualityTier (qualityScore m) = "medium" ↔
      40 ≤ qualityScore m ∧ qualityScore m < 70) ∧
    (qualityTier (qualityScore m) = "low" ↔ qualityScore m < 40) ∧
    qualityScore { m with views := none } =
      qualityScore { m with views := some 0 } ∧
    qualityScore { m with subscribers := none } =
      qualityScore { m with subscribers := some 0 } ∧
    qualityScore { m with likes := none } =
      qualityScore { m with likes := some 0 } ∧
    qualityScore { m with duration_minutes := none } =
      qualityScore { m with duration_minutes := some 0 } ∧
    qualityScore ⟨none, none, none, false, none⟩ = 0 ∧
    qualityTier (qualityScore ⟨none, none, none, false, none⟩) = "low" := by
  obtain ⟨t1, t2, t3⟩ := quality_tier_cases (qualityScore m)
  refine ⟨rfl, Nat.min_le_right _ _, t1, t2, t3, ?_, ?_, ?_, ?_, rfl, rfl⟩
  all_goals
    norm_num [qualityScore, viewsPoints, subscriberPoints, likesPoints,
      trustedPoints, durationPoints]

/-! ## C10: the UI agreement-rate display classifier -/

/-- C10: `getAgreementClass` labels a rate strong iff it is ≥ 0.8, moderate
iff it lies in [0.6, 0.8), weak otherwise; the ConsensusView applies it to
every rendered ConsensusItem's agreement rate; its 0.8 threshold is
distinct from the 0.6 consensus threshold. -/
theorem agreement_class_thresholds :
    (∀ r : ℚ, (getAgreementClass r = "strong" ↔ 8/10 ≤ r) ∧
      (getAgreementClass r = "moderate" ↔ 6/10 ≤ r ∧ r < 8/10) ∧
      (getAgreementClass r = "weak" ↔ r < 6/10)) ∧
    (∀ items : List ConsensusItem, renderedAgreementClasses items =
      items.map (fun it => getAgreementClass it.agreement_rate)) ∧
    ((8 : ℚ)/10 ≠ 6/10) := by
  refine ⟨fun r => ?_, fun items => rfl, by norm_num⟩
  unfold getAgreementClass
  split_ifs with h1 h2 <;>
    refine ⟨⟨fun hc => ?_, fun hc => ?_⟩, ⟨fun hc => ?_, fun hc => ?_⟩,
      ⟨fun hc => ?_, fun hc => ?_⟩⟩ <;>
    first
      | assumption
      | rfl
      | (exact absurd hc (by decide))
      | (exact ⟨h2, by linarith⟩)
      | linarith
      | (obtain ⟨hc1, hc2⟩ := hc; linarith)

/-! ## C6: synthesizing an empty source list -/

/-- C6: synthesis of an empty source list returns exactly zero sources
analyzed and empty consensus, controversy and gap lists (a total function,
so empty input cannot raise). -/
theorem synthesize_empty : synthesize [] = ⟨0, [], [], []⟩ := by decide

/-! ## Lemmas about bucketing -/

theorem sizes_addToBuckets (s : SourceInput) (v : String) (bs : List Bucket) :
    ((addToBuckets s v bs).map (fun b => b.members.length)).sum =
      (bs.map (fun b => b.members.length)).sum + 1 := by
  induction bs with
  | nil => simp [addToBuckets]
  | cons b rest ih =>
    unfold addToBuckets
    split_ifs with hk
    · simp only [List.map_cons, List.sum_cons, List.length_append,
        List.length_cons, List.length_nil]
      omega
    · simp only [List.map_cons, List.sum_cons, ih]
      omega

theorem sizes_bucketStep (t : Topic) (bs : List Bucket) (s : SourceInput) :
    ((bucketStep t bs s).map (fun b => b.members.length)).sum =
      (bs.map (fun b => b.members.length)).sum +
        (if (s.fields t).isSome then 1 else 0) := by
  unfold bucketStep
  cases h : s.fields t with
  | none => simp
  | some v => simp [sizes_addToBuckets]

theorem sizes_foldl_bucketStep (t : Topic) (l : List SourceInput) :
    ∀ init : List Bucket,
      ((l.foldl (bucketStep t) init).map (fun b => b.members.length)).sum =
        (init.map (fun b => b.members.length)).sum +
          (l.filter (fun s => (s.fields t).isSome)).length := by
  induction l with
  | nil => intro init; simp
  | cons s rest ih =>
    intro init
    rw [List.foldl_cons, ih (bucketStep t init s), sizes_bucketStep]
    rw [List.filter_cons]
    split_ifs with h <;> simp [h] <;> omega

theorem sizes_buildBuckets (t : Topic) (sources : List SourceInput) :
    ((buildBuckets t sources).map (fun b => b.members.length)).sum =
      presentCount sources t := by
  unfold buildBuckets presentCount
  rw [sizes_foldl_bucketStep]
  simp

theorem buildBuckets_ne_nil (t : Topic) (sources : List SourceInput)
    (h : presentCount sources t ≠ 0) : buildBuckets t sources ≠ [] := by
  intro hnil
  apply h
  have hs := sizes_buildBuckets t sources
  rw [hnil] at hs
  simpa using hs.symm

/-- A bucket drawn from a given source pool: non-empty membership, all
members from the pool. -/
def BucketOK (pool : List SourceInput) (b : Bucket) : Prop :=
  b.members ≠ [] ∧ ∀ m ∈ b.members, m ∈ pool

theorem addToBuckets_ok {pool : List SourceInput} {s : SourceInput}
    {v : String} {bs : List Bucket} (hs : s ∈ pool)
    (h : ∀ b ∈ bs, BucketOK pool b) :
    ∀ b ∈ addToBuckets s v bs, BucketOK pool b := by
  induction bs with
  | nil =>
    intro b hb
    simp only [addToBuckets, List.mem_singleton] at hb
    subst hb
    exact ⟨by simp, by simpa using hs⟩
  | cons x xs ih =>
    intro b hb
    unfold addToBuckets at hb
    split_ifs at hb with hk
    · rcases List.mem_cons.mp hb with hb1 | hb2
      · subst hb1
        obtain ⟨hne, hmem⟩ := h x (by simp)
        refine ⟨by simp, ?_⟩
        intro m hm
        rcases List.mem_append.mp hm with hm1 | hm2
        · exact hmem m hm1
        · rw [List.mem_singleton] at hm2
          subst hm2
          exact hs
      · exact h b (List.mem_cons_of_mem _ hb2)
    · rcases List.mem_cons.mp hb with hb1 | hb2
      · subst hb1
        exact h b (by simp)
      · exact ih (fun b' hb' => h b' (List.mem_cons_of_mem _ hb')) b hb2

theorem bucketStep_ok {pool : List SourceInput} {s : SourceInput}
    {bs : List Bucket} (t : Topic) (hs : s ∈ pool)
    (h : ∀ b ∈ bs, BucketOK pool b) :
    ∀ b ∈ bucketStep t bs s, BucketOK pool b := by
  unfold bucketStep
  cases hv : s.fields t with
  | none => exact h
  | some v => exact addToBuckets_ok hs h

theorem foldl_bucketStep_ok {pool : List SourceInput} (t : Topic) :
    ∀ (l : List SourceInput) (init : List Bucket),
      (∀ s ∈ l, s ∈ pool) → (∀ b ∈ init, BucketOK pool b) →
      ∀ b ∈ l.foldl (bucketStep t) init, BucketOK pool b := by
  intro l
  induction l with
  | nil => intro init _ hinit; simpa using hinit
  | cons s rest ih =>
    intro init hl hinit
    rw [List.foldl_cons]
    exact ih (bucketStep t init s)
      (fun x hx => hl x (List.mem_cons_of_mem _ hx))
      (bucketStep_ok t (hl s (by simp)) hinit)

theorem buildBuckets_ok (t : Topic) (sources : List SourceInput) :
    ∀ b ∈ buildBuckets t sources, BucketOK sources b :=
  foldl_bucketStep_ok t sources [] (fun _ hs => hs) (by simp)

theorem maxBucketSize_cons (x : Bucket) (xs : List Bucket) :
    maxBucketSize (x :: xs) = max x.members.length (maxBucketSize xs) := rfl

theorem exists_max_bucket :
    ∀ (l : List Bucket), l ≠ [] →
      ∃ b ∈ l, b.members.length = maxBucketSize l := by
  intro l
  induction l with
  | nil => intro h; exact absurd rfl h
  | cons x xs ih =>
    intro _
    cases xs with
    | nil =>
      refine ⟨x, by simp, ?_⟩
      rw [maxBucketSize_cons]
      simp [maxBucketSize]
    | cons y ys =>
      obtain ⟨b, hb, hlen⟩ := ih (by simp)
      rcases le_total x.members.length (maxBucketSize (y :: ys)) with hle | hle
      · refine ⟨b, List.mem_cons_of_mem _ hb, ?_⟩
        rw [maxBucketSize_cons, max_eq_right hle, hlen]
      · refine ⟨x, by simp, ?_⟩
        rw [maxBucketSize_cons, max_eq_left hle]

theorem argmaxAvg_mem : ∀ {l : List Bucket} {b : Bucket},
    argmaxAvg l = some b → b ∈ l := by
  intro l
  induction l with
  | nil => intro b h; simp [argmaxAvg] at h
  | cons x xs ih =>
    intro b h
    unfold argmaxAvg at h
    cases hxs : argmaxAvg xs with
    | none =>
      simp only [hxs, Option.some.injEq] at h
      subst h
      simp
    | some c =>
      simp only [hxs] at h
      split_ifs at h <;> simp only [Option.some.injEq] at h <;> subst h
      · exact List.mem_cons_of_mem _ (ih hxs)
      · simp

theorem argmaxAvg_isSome :
    ∀ {l : List Bucket}, l ≠ [] → ∃ b, argmaxAvg l = some b := by
  intro l
  cases l with
  | nil => intro h; exact absurd rfl h
  | cons x xs =>
    intro _
    unfold argmaxAvg
    cases hxs : argmaxAvg xs with
    | none => exact ⟨x, by simp⟩
    | some c =>
      simp only
      split_ifs with hlt
      · exact ⟨c, rfl⟩
      · exact ⟨x, rfl⟩

theorem winnerBucket_isSome {buckets : List Bucket} (h : buckets ≠ []) :
    ∃ w, winnerBucket buckets = some w ∧ w ∈ buckets ∧
      w.members.length = maxBucketSize buckets := by
  obtain ⟨b, hb, hlen⟩ := exists_max_bucket buckets h
  have hfil : buckets.filter (fun x => x.members.length = maxBucketSize buckets) ≠ [] := by
    intro hnil
    have hbmem : b ∈ buckets.filter
        (fun x => x.members.length = maxBucketSize buckets) :=
      List.mem_filter.mpr ⟨hb, by simpa using hlen⟩
    rw [hnil] at hbmem
    simp at hbmem
  obtain ⟨w, hw⟩ := argmaxAvg_isSome hfil
  have hwf := List.mem_filter.mp (argmaxAvg_mem hw)
  exact ⟨w, hw, hwf.1, by simpa using hwf.2⟩

theorem winnerBucket_mem {buckets : List Bucket} {w : Bucket}
    (h : winnerBucket buckets = some w) : w ∈ buckets :=
  (List.mem_filter.mp (argmaxAvg_mem h)).1

/-! ## Lemmas about the stable descending sort of buckets -/

theorem insertByCount_perm (b : Bucket) :
    ∀ l : List Bucket, List.Perm (insertByCount b l) (b :: l) := by
  intro l
  induction l with
  | nil => simp [insertByCount]
  | cons x xs ih =>
    unfold insertByCount
    split_ifs with hc
    · exact List.Perm.refl _
    · exact (ih.cons x).trans (List.Perm.swap b x xs)

theorem sortByCount_perm : ∀ l : List Bucket, List.Perm (sortByCount l) l := by
  intro l
  induction l with
  | nil => simp [sortByCount]
  | cons x xs ih =>
    have hstep : sortByCount (x :: xs) = insertByCount x (sortByCount xs) := rfl
    rw [hstep]
    exact (insertByCount_perm x (sortByCount xs)).trans (ih.cons x)

/-- Descending-count order on buckets. -/
def DescCount (a b : Bucket) : Prop := b.members.length ≤ a.members.length

theorem insertByCount_sorted {b : Bucket} :
    ∀ {l : List Bucket}, l.Pairwise DescCount →
      (insertByCount b l).Pairwise DescCount := by
  intro l
  induction l with
  | nil => intro _; simp [insertByCount, DescCount]
  | cons x xs ih =>
    intro h
    obtain ⟨hx, hxs⟩ := List.pairwise_cons.mp h
    unfold insertByCount
    split_ifs with hc
    · refine List.pairwise_cons.mpr ⟨?_, h⟩
      intro z hz
      rcases List.mem_cons.mp hz with hz1 | hz2
      · subst hz1; exact hc
      · exact le_trans (hx z hz2) hc
    · refine List.pairwise_cons.mpr ⟨?_, ih hxs⟩
      intro z hz
      rcases List.mem_cons.mp ((insertByCount_perm b xs).mem_iff.mp hz) with hz1 | hz2
      · subst hz1
        exact le_of_lt (lt_of_not_le hc)
      · exact hx z hz2

theorem sortByCount_sorted : ∀ l : List Bucket,
    (sortByCount l).Pairwise DescCount := by
  intro l
  induction l with
  | nil => simp [sortByCount]
  | cons x xs ih => exact insertByCount_sorted ih

theorem filter_insertByCount (b : Bucket) (n : Nat) :
    ∀ l : List Bucket,
      (insertByCount b l).filter (fun x => x.members.length = n) =
        ((b :: l).filter (fun x => x.members.length = n)) := by
  intro l
  induction l with
  | nil => rfl
  | cons x xs ih =>
    by_cases hc : x.members.length ≤ b.members.length
    · unfold insertByCount
      rw [if_pos hc]
    · unfold insertByCount
      rw [if_neg hc]
      rw [List.filter_cons, List.filter_cons, List.filter_cons, ih,
        List.filter_cons]
      split_ifs with h1 h2 h3 <;> first
        | rfl
        | (exfalso
           have hb : b.members.length = n := by simpa using h2
           have hx : x.members.length = n := by simpa using h1
           omega)
        | skip

theorem sortByCount_stable (n : Nat) : ∀ l : List Bucket,
    (sortByCount l).filter (fun x => x.members.length = n) =
      l.filter (fun x => x.members.length = n) := by
  intro l
  induction l with
  | nil => rfl
  | cons x xs ih =>
    have hstep : sortByCount (x :: xs) = insertByCount x (sortByCount xs) := rfl
    rw [hstep, filter_insertByCount, List.filter_cons, List.filter_cons, ih]

theorem synthesizeTopic_pos {sources : List SourceInput} {t : Topic}
    (h : presentCount sources t ≠ 0) :
    synthesizeTopic sources t =
      (if 3/5 ≤ agreementRate sources t then
        match winnerBucket (buildBuckets t sources) with
        | some w => .consensusOf ⟨topicLabel t, w.reprValue,
            agreementRate sources t,
            (sortByCount (buildBuckets t sources)).map toPosition,
            w.members.map (fun s => s.id)⟩
        | none => .nothingOut
      else if 2 ≤ (buildBuckets t sources).length then
        .controversyOf ⟨topicLabel t,
          (sortByCount (buildBuckets t sources)).map toPosition⟩
      else .nothingOut) := by
  unfold synthesizeTopic agreementRate
  rw [if_neg h]

theorem consensusOf_inv {sources : List SourceInput} {t : Topic}
    {item : ConsensusItem}
    (h : synthesizeTopic sources t = .consensusOf item) :
    ∃ w, winnerBucket (buildBuckets t sources) = some w ∧
      w ∈ buildBuckets t sources ∧
      item.topic = topicLabel t ∧
      item.agreement_rate = agreementRate sources t ∧
      item.consensus_value = w.reprValue ∧
      item.sources = w.members.map (fun s => s.id) ∧
      item.positions = (sortByCount (buildBuckets t sources)).map toPosition := by
  by_cases hp : presentCount sources t = 0
  · unfold synthesizeTopic at h
    rw [if_pos hp] at h
    split_ifs at h <;> simp at h
  · rw [synthesizeTopic_pos hp] at h
    by_cases hrate : 3/5 ≤ agreementRate sources t
    · rw [if_pos hrate] at h
      cases hwb : winnerBucket (buildBuckets t sources) with
      | none =>
        simp only [hwb] at h
        exact absurd h (by simp)
      | some w =>
        simp only [hwb] at h
        injection h with h'
        exact ⟨w, rfl, winnerBucket_mem hwb, by rw [← h'], by rw [← h'],
          by rw [← h'], by rw [← h'], by rw [← h']⟩
    · rw [if_neg hrate] at h
      split_ifs at h <;> simp at h

theorem controversyOf_inv {sources : List SourceInput} {t : Topic}
    {c : Controversy}
    (h : synthesizeTopic sources t = .controversyOf c) :
    c.topic = topicLabel t ∧
    c.positions = (sortByCount (buildBuckets t sources)).map toPosition ∧
    2 ≤ (buildBuckets t sources).length := by
  by_cases hp : presentCount sources t = 0
  · unfold synthesizeTopic at h
    rw [if_pos hp] at h
    split_ifs at h <;> simp at h
  · rw [synthesizeTopic_pos hp] at h
    by_cases hrate : 3/5 ≤ agreementRate sources t
    · rw [if_pos hrate] at h
      cases hwb : winnerBucket (buildBuckets t sources) with
      | none =>
        simp only [hwb] at h
        exact absurd h (by simp)
      | some w =>
        simp only [hwb] at h
        exact absurd h (by simp)
    · rw [if_neg hrate] at h
      by_cases hlen : 2 ≤ (buildBuckets t sources).length
      · rw [if_pos hlen] at h
        injection h with h'
        exact ⟨by rw [← h'], by rw [← h'], hlen⟩
      · rw [if_neg hlen] at h
        simp at h

/-! ## C2: consensus emission and agreement rate -/

/-- C2: for a topic with at least one non-missing value, the agreement rate
is the largest bucket's size over the non-missing count, a ConsensusItem is
emitted for the topic iff that rate reaches 0.6, and the emitted item
carries that rate and the winning bucket's representative value, the winner
being a largest bucket selected by highest average source Specificity. -/
theorem consensus_agreement (sources : List SourceInput) (t : Topic)
    (h : presentCount sources t ≠ 0) :
    agreementRate sources t =
      (maxBucketSize (buildBuckets t sources) : ℚ) /
        (presentCount sources t : ℚ) ∧
    ((∃ item, synthesizeTopic sources t = .consensusOf item) ↔
      3/5 ≤ agreementRate sources t) ∧
    (∀ item, synthesizeTopic sources t = .consensusOf item →
      item.topic = topicLabel t ∧
      item.agreement_rate = agreementRate sources t ∧
      ∃ w, winnerBucket (buildBuckets t sources) = some w ∧
        w ∈ buildBuckets t sources ∧
        w.members.length = maxBucketSize (buildBuckets t sources) ∧
        item.consensus_value = w.reprValue ∧
        item.sources = w.members.map (fun s => s.id)) := by
  have hbne : buildBuckets t sources ≠ [] := buildBuckets_ne_nil t sources h
  obtain ⟨w, hw, hwmem, hwlen⟩ := winnerBucket_isSome hbne
  refine ⟨rfl, ⟨?_, ?_⟩, ?_⟩
  · rintro ⟨item, hitem⟩
    by_contra hrate
    rw [synthesizeTopic_pos h, if_neg hrate] at hitem
    split_ifs at hitem <;> simp at hitem
  · intro hrate
    refine ⟨⟨topicLabel t, w.reprValue, agreementRate sources t,
      (sortByCount (buildBuckets t sources)).map toPosition,
      w.members.map (fun s => s.id)⟩, ?_⟩
    rw [synthesizeTopic_pos h, if_pos hrate, hw]
  · intro item hitem
    obtain ⟨w', hw', hw'mem, h1, h2, h3, h4, h5⟩ := consensusOf_inv hitem
    rw [hw] at hw'
    injection hw' with hww
    subst hww
    exact ⟨h1, h2, w, hw, hw'mem, hwlen, h3, h4⟩

/-- Build an example synthesis source from an id, a Specificity score, an
underlying value and a dte value (other topics missing). -/
def mkSrc (i : String) (sp : ℚ) (u d : Option String) : SourceInput :=
  ⟨i, sp, fun t =>
    match t with
    | .underlying => u
    | .dte => d
    | _ => none⟩

/-- Three sources all reporting underlying SPX. -/
def exC2 : List SourceInput :=
  [mkSrc ("s1") 5 (some ("SPX")) none,
   mkSrc ("s2") 6 (some ("SPX")) none,
   mkSrc ("s3") 7 (some ("SPX")) none]

/-- The ConsensusItem produced for "underlying" from `exC2`. -/
def exC2Item : ConsensusItem :=
  ⟨"underlying", "SPX", 1, [⟨"SPX", 3, ["s1", "s2", "s3"]⟩],
   ["s1", "s2", "s3"]⟩

/-- C2 witness: three sources agreeing on SPX give agreement rate 1 and a
ConsensusItem whose rate is the agreement rate. -/
theorem consensus_agreement_witness :
    agreementRate exC2 .underlying = 1 ∧
    synthesizeTopic exC2 .underlying = .consensusOf exC2Item ∧
    exC2Item.agreement_rate = agreementRate exC2 .underlying := by
  have h1 : agreementRate exC2 .underlying = 1 := by
    norm_num [agreementRate, exC2, mkSrc, buildBuckets, bucketStep, addToBuckets,
      normalizeValue, maxBucketSize, presentCount, List.filter, List.foldl,
      List.foldr]
  have h2 : synthesizeTopic exC2 .underlying = .consensusOf exC2Item := by
    norm_num [synthesizeTopic, presentCount, exC2, mkSrc, buildBuckets,
      bucketStep, addToBuckets, normalizeValue, maxBucketSize, winnerBucket,
      argmaxAvg, avgSpec, sortByCount, insertByCount, toPosition, topicLabel,
      exC2Item, agreementRate, List.filter, List.foldl, List.foldr]
  have h3 := ((consensus_agreement exC2 .underlying (by decide)).2.2 exC2Item
    h2).2.1
  exact ⟨h1, h2, h3⟩

/-! ## C3: controversies and position ordering -/

/-- Three sources split 1-vs-2 on dte. -/
def exC3 : List SourceInput :=
  [mkSrc ("s1") 5 none (some ("5-7")),
   mkSrc ("s2") 6 none (some ("30-45")),
   mkSrc ("s3") 7 none (some ("30-45"))]

/-- C3 counterexample: on the claimed three-source 1-vs-2 dte split the
agreement rate is 2/3, which reaches the 0.6 threshold, so the synthesizer
emits a ConsensusItem for "dte" and no Controversy at all. -/
theorem controversy_example_refuted :
    agreementRate exC3 .dte = 2/3 ∧ ((3 : ℚ)/5 ≤ 2/3) ∧
    (synthesize exC3).controversies = [] ∧
    (synthesize exC3).consensus.map (fun i => i.topic) = ["dte"] := by
  refine ⟨?_, by norm_num, ?_, ?_⟩
  · norm_num [agreementRate, exC3, mkSrc, buildBuckets, bucketStep,
      addToBuckets, normalizeValue, maxBucketSize, presentCount, List.filter,
      List.foldl, List.foldr]
  · norm_num [synthesize, topicsOrder, synthesizeTopic, presentCount, exC3,
      mkSrc, buildBuckets, bucketStep, addToBuckets, normalizeValue,
      maxBucketSize, winnerBucket, argmaxAvg, avgSpec, sortByCount,
      insertByCount, toPosition, topicLabel, agreementRate, List.filter,
      List.foldl, List.foldr, List.filterMap]
  · norm_num [synthesize, topicsOrder, synthesizeTopic, presentCount, exC3,
      mkSrc, buildBuckets, bucketStep, addToBuckets, normalizeValue,
      maxBucketSize, winnerBucket, argmaxAvg, avgSpec, sortByCount,
      insertByCount, toPosition, topicLabel, agreementRate, List.filter,
      List.foldl, List.foldr, List.filterMap]

/-- C3 (amended): for a topic where the agreement rate stays below 0.6 and
at least two buckets exist, a Controversy is emitted listing every bucket
as a position, ordered by descending source count, ties keeping first-seen
bucket order (the sort is stable: within any fixed count the original
bucket order is preserved). -/
theorem controversy_positions_sorted (sources : List SourceInput) (t : Topic)
    (hpres : presentCount sources t ≠ 0)
    (hrate : ¬ 3/5 ≤ agreementRate sources t)
    (hbuckets : 2 ≤ (buildBuckets t sources).length) :
    synthesizeTopic sources t = .controversyOf
      ⟨topicLabel t, (sortByCount (buildBuckets t sources)).map toPosition⟩ ∧
    List.Perm (sortByCount (buildBuckets t sources)) (buildBuckets t sources) ∧
    ((sortByCount (buildBuckets t sources)).map toPosition).Pairwise
      (fun p q => q.source_count ≤ p.source_count) ∧
    (∀ n, (sortByCount (buildBuckets t sources)).filter
        (fun b => b.members.length = n) =
      (buildBuckets t sources).filter (fun b => b.members.length = n)) ∧
    (∀ b ∈ buildBuckets t sources,
      toPosition b ∈ (sortByCount (buildBuckets t sources)).map toPosition) := by
  refine ⟨?_, sortByCount_perm _, ?_, fun n => sortByCount_stable n _, ?_⟩
  · rw [synthesizeTopic_pos hpres, if_neg hrate, if_pos hbuckets]
  · exact List.pairwise_map.mpr (sortByCount_sorted _)
  · intro b hb
    exact List.mem_map_of_mem toPosition
      ((sortByCount_perm (buildBuckets t sources)).mem_iff.mpr hb)

/-- Four sources split 1-2-1 on dte (no bucket reaches 0.6). -/
def exC3Amended : List SourceInput :=
  [mkSrc ("s1") 5 none (some ("5-7")),
   mkSrc ("s2") 6 none (some ("30-45")),
   mkSrc ("s3") 7 none (some ("30-45")),
   mkSrc ("s4") 4 none (some ("0"))]

/-- C3 witness: the four-source 1-2-1 dte split yields a Controversy whose
positions are ordered by descending count with first-seen tie order. -/
theorem controversy_positions_sorted_witness :
    synthesizeTopic exC3Amended .dte = .controversyOf
      ⟨"dte", (sortByCount (buildBuckets .dte exC3Amended)).map toPosition⟩ ∧
    (sortByCount (buildBuckets .dte exC3Amended)).map toPosition =
      [⟨"30-45", 2, ["s2", "s3"]⟩, ⟨"5-7", 1, ["s1"]⟩, ⟨"0", 1, ["s4"]⟩] := by
  constructor
  · exact (controversy_positions_sorted exC3Amended .dte (by decide)
      (by norm_num [agreementRate, exC3Amended, mkSrc, buildBuckets, bucketStep,
        addToBuckets, normalizeValue, maxBucketSize, presentCount, List.filter,
        List.foldl, List.foldr])
      (by decide)).1
  · norm_num [exC3Amended, mkSrc, buildBuckets, bucketStep, addToBuckets,
      normalizeValue, sortByCount, insertByCount, toPosition, List.foldl,
      List.foldr]

/-! ## C9: source attribution invariants -/

theorem toPosition_ok {pool : List SourceInput} {b : Bucket}
    (hb : BucketOK pool b) :
    (toPosition b).sources ≠ [] ∧
    ∀ i ∈ (toPosition b).sources, i ∈ pool.map (fun s => s.id) := by
  obtain ⟨hne, hmem⟩ := hb
  constructor
  · simpa [toPosition] using hne
  · intro i hi
    simp only [toPosition] at hi
    obtain ⟨m, hm, hmi⟩ := List.mem_map.mp hi
    exact List.mem_map.mpr ⟨m, hmem m hm, hmi⟩

theorem positions_ok {sources : List SourceInput} {t : Topic} {p : Position}
    (hp : p ∈ (sortByCount (buildBuckets t sources)).map toPosition) :
    p.sources ≠ [] ∧ ∀ i ∈ p.sources, i ∈ sources.map (fun s => s.id) := by
  obtain ⟨b, hb, hbp⟩ := List.mem_map.mp hp
  have hbmem : b ∈ buildBuckets t sources :=
    (sortByCount_perm (buildBuckets t sources)).mem_iff.mp hb
  rw [← hbp]
  exact toPosition_ok (buildBuckets_ok t sources b hbmem)

/-- C9: every emitted ConsensusItem carries a non-empty source list drawn
from the input source ids, and every position of every ConsensusItem and
Controversy likewise attributes a non-empty subset of the input source ids;
controversies list at least two positions. -/
theorem synthesis_attribution (sources : List SourceInput)
    (hne : sources ≠ []) :
    (∀ item ∈ (synthesize sources).consensus,
      item.sources ≠ [] ∧
      (∀ i ∈ item.sources, i ∈ sources.map (fun s => s.id)) ∧
      ∀ p ∈ item.positions, p.sources ≠ [] ∧
        ∀ i ∈ p.sources, i ∈ sources.map (fun s => s.id)) ∧
    (∀ c ∈ (synthesize sources).controversies,
      2 ≤ c.positions.length ∧
      ∀ p ∈ c.positions, p.sources ≠ [] ∧
        ∀ i ∈ p.sources, i ∈ sources.map (fun s => s.id)) := by
  constructor
  · intro item hitem
    simp only [synthesize, List.mem_filterMap] at hitem
    obtain ⟨t, ht, heq⟩ := hitem
    cases hout : synthesizeTopic sources t <;> rw [hout] at heq <;>
      simp only [Option.some.injEq, reduceCtorEq] at heq
    case consensusOf item' =>
      subst heq
      obtain ⟨w, hw, hwmem, -, -, -, hsrc, hpos⟩ := consensusOf_inv hout
      have hwok := buildBuckets_ok t sources w hwmem
      refine ⟨?_, ?_, ?_⟩
      · rw [hsrc]
        simpa using hwok.1
      · intro i hi
        rw [hsrc] at hi
        obtain ⟨m, hm, hmi⟩ := List.mem_map.mp hi
        exact List.mem_map.mpr ⟨m, hwok.2 m hm, hmi⟩
      · intro p hp
        rw [hpos] at hp
        exact positions_ok hp
  · intro c hc
    simp only [synthesize, List.mem_filterMap] at hc
    obtain ⟨t, ht, heq⟩ := hc
    cases hout : synthesizeTopic sources t <;> rw [hout] at heq <;>
      simp only [Option.some.injEq, reduceCtorEq] at heq
    case controversyOf c' =>
      subst heq
      obtain ⟨-, hpos, hlen⟩ := controversyOf_inv hout
      refine ⟨?_, ?_⟩
      · rw [hpos, List.length_map,
          (sortByCount_perm (buildBuckets t sources)).length_eq]
        exact hlen
      · intro p hp
        rw [hpos] at hp
        exact positions_ok hp

/-- C9 witness: the item synthesized from the three-SPX example has a
non-empty source list drawn from the input ids. -/
theorem synthesis_attribution_witness :
    exC2Item.sources ≠ [] ∧ "s1" ∈ exC2.map (fun s => s.id) := by
  have hmem : exC2Item ∈ (synthesize exC2).consensus := by
    norm_num [synthesize, topicsOrder, synthesizeTopic, presentCount, exC2,
      mkSrc, buildBuckets, bucketStep, addToBuckets, normalizeValue,
      maxBucketSize, winnerBucket, argmaxAvg, avgSpec, sortByCount,
      insertByCount, toPosition, topicLabel, exC2Item, agreementRate,
      List.filter, List.foldl, List.foldr, List.filterMap]
  have h := (synthesis_attribution exC2 (by simp [exC2])).1 exC2Item hmem
  exact ⟨h.1, h.2.1 ("s1") (by simp [exC2Item])⟩

/-- C5 witness: the all-absent candidate scores 0 and tiers low. -/
theorem discovery_tiering_witness :
    qualityScore ⟨none, none, none, false, none⟩ = 0 ∧
    qualityTier (qualityScore ⟨none, none, none, false, none⟩) = "low" := by
  obtain ⟨-, -, -, -, -, -, -, -, -, h1, h2⟩ :=
    discovery_tiering ⟨none, none, none, false, none⟩
  exact ⟨h1, h2⟩

/-- C10 witness: the classifier at rates 1, 0.7 and 0.5. -/
theorem agreement_class_thresholds_witness :
    getAgreementClass 1 = "strong" ∧ getAgreementClass (7/10) = "moderate" ∧
    getAgreementClass (1/2) = "weak" :=
  ⟨(agreement_class_thresholds.1 1).1.mpr (by norm_num),
   (agreement_class_thresholds.1 (7/10)).2.1.mpr (by norm_num),
   (agreement_class_thresholds.1 (1/2)).2.2.mpr (by norm_num)⟩
